import Mathlib

/-!
Verification of the trace-adapter trace ingestion engine
(`move-analyzer/trace-adapter/src/trace_utils.ts`).

The TypeScript source is shallowly embedded below: the JSON trace schema
becomes inductive types, the mutable `Map`s and arrays of `readTrace`
become functional association lists and `Option`-valued rows (a `none`
entry models a JavaScript array hole / `undefined`), and the event loop
becomes a fold of a step function `processEvent` over the event list.
-/

namespace TraceAdapter

/-- Modelled from the spec: `FRAME_LIFETIME` is imported from `./utils`,
which is not part of the available sources.  The spec describes it as the
alive-sentinel, a marker distinct from every instruction pc that means
"live until the enclosing frame closes"; we model a lifetime-table entry
as either that sentinel or a concrete pc. -/
inductive LifetimeEnd where
  | frameLifetime : LifetimeEnd
  | pc (n : Nat) : LifetimeEnd
deriving DecidableEq, Repr

/-- Modelled from the spec: `RuntimeValueType` is imported from
`./runtime`, which is not part of the available sources.  The spec defines
a RuntimeValue as `Scalar(string)`, `Sequence(RuntimeValue[])`, or
`Compound { fields : ordered (name, value) pairs, typeName,
variantName?, variantTag? }`. -/
inductive RuntimeValueType where
  | scalar (s : String) : RuntimeValueType
  | seq (elems : List RuntimeValueType) : RuntimeValueType
  | compound (fields : List (String × RuntimeValueType)) (typeName : String)
      (variantName : Option String) (variantTag : Option Nat) : RuntimeValueType
deriving Repr

/-- Schema type `JSONTraceValueType`: a raw trace value is a boolean, number, string,
array of values, or a compound (`JSONTraceCompound` with a `fields` map in
declared order, a `type`, and optional `variant_name` / `variant_tag`).
Numbers in traces are integers; we render them the way JavaScript
`String()` renders integral numbers. -/
inductive JSONValue where
  | bool (b : Bool) : JSONValue
  | num (n : Int) : JSONValue
  | str (s : String) : JSONValue
  | arr (elems : List JSONValue) : JSONValue
  | compound (fields : List (String × JSONValue)) (type_ : String)
      (variant_name : Option String) (variant_tag : Option Nat) : JSONValue
deriving Repr

mutual

/-- Embeds `traceValueFromJSON` (trace_utils.ts, lines 376-394): converts a JSON
trace value to a runtime trace value.  Scalars become `String(value)`,
arrays are mapped elementwise, any other object becomes a compound value
with its fields decoded recursively in declared order and `type`,
`variant_name`, `variant_tag` copied through. -/
def traceValueFromJSON : JSONValue → RuntimeValueType
  | .bool b => .scalar (if b then "true" else "false")
  | .num n => .scalar (toString n)
  | .str s => .scalar s
  | .arr elems => .seq (traceValuesFromJSON elems)
  | .compound fields type_ variant_name variant_tag =>
      .compound (traceFieldsFromJSON fields) type_ variant_name variant_tag

/-- Elementwise decoding of an array of raw values
(the `value.map(item => traceValueFromJSON(item))` call). -/
def traceValuesFromJSON : List JSONValue → List RuntimeValueType
  | [] => []
  | v :: rest => traceValueFromJSON v :: traceValuesFromJSON rest

/-- Entrywise decoding of a compound's `fields`
(the `Object.entries(value.fields).map` call). -/
def traceFieldsFromJSON : List (String × JSONValue) → List (String × RuntimeValueType)
  | [] => []
  | (key, v) :: rest => (key, traceValueFromJSON v) :: traceFieldsFromJSON rest

end

-- Raw trace schema (the fields the ingestion code reads).

/-- Schema type `JSONTraceModule`: module address and name. -/
structure JSONTraceModule where
  address : String
  name : String
deriving DecidableEq, Repr

/-- Schema type `JSONTraceType`: a local's type (`ref_type` is never read by the
ingestion code, `type_` is). -/
structure JSONTraceType where
  ref_type : Option String
  type_ : String
deriving DecidableEq, Repr

/-- Schema type `JSONTraceRuntimeValue`: wrapper holding a raw value. -/
structure JSONTraceRuntimeValue where
  value : JSONValue
deriving Repr

/-- Schema type `JSONTraceValue`: wrapper `{ RuntimeValue: ... }`. -/
structure JSONTraceValue where
  RuntimeValue : JSONTraceRuntimeValue
deriving Repr

/-- Schema type `JSONTraceFrame` (the fields `readTrace` reads: `frame_id`,
`function_name`, `module`, `locals_types`, `parameters`). -/
structure JSONTraceFrame where
  frame_id : Nat
  function_name : String
  module : JSONTraceModule
  locals_types : List JSONTraceType
  parameters : List JSONTraceValue
deriving Repr

/-- Schema type `JSONTraceLocation`: `{Local: [frameId, localIndex]}` or
`{Indexed: [{Local: [frameId, localIndex]}, index]}`. -/
inductive JSONTraceLocation where
  | Local (frameId localIndex : Nat) : JSONTraceLocation
  | Indexed (baseFrameId baseLocalIndex : Nat) (index : Nat) : JSONTraceLocation
deriving DecidableEq, Repr

/-- Schema type `JSONTraceEffect`: tagged effect.  `Push` and `Pop` carry data in the
schema but the ingestion code never reads it (only `Write`/`Read` are
inspected by the `if (effect.Write || effect.Read)` test), so they are
modelled as bare tags; `unknownEffect` models an effect object carrying
none of the four optional keys. -/
inductive JSONTraceEffect where
  | Push : JSONTraceEffect
  | Pop : JSONTraceEffect
  | Write (location : JSONTraceLocation) (root_value_after_write : JSONTraceValue) :
      JSONTraceEffect
  | Read (location : JSONTraceLocation) (moved : Bool) (root_value_read : JSONTraceValue) :
      JSONTraceEffect
  | unknownEffect : JSONTraceEffect
deriving Repr

/-- Schema type `JSONTraceEvent`: in the schema this is an object with four optional
keys (`OpenFrame`, `Instruction`, `Effect`, `CloseFrame`); `unknown`
models an event object carrying none of them, which the `if/else if`
chain of `readTrace` matches with no branch.  Of `JSONTraceInstruction`
only `pc` is read; of `JSONTraceCloseFrame` only `frame_id` is read. -/
inductive JSONTraceEvent where
  | OpenFrame (frame : JSONTraceFrame) : JSONTraceEvent
  | Instruction (pc : Nat) : JSONTraceEvent
  | Effect (effect : JSONTraceEffect) : JSONTraceEvent
  | CloseFrame (frame_id : Nat) : JSONTraceEvent
  | unknown : JSONTraceEvent
deriving Repr

-- Canonical (output) event types.

/-- Output type `ModuleInfo` (from `./utils`, mirrored by the spec's `moduleInfo`). -/
structure ModuleInfo where
  addr : String
  name : String
deriving DecidableEq, Repr

/-- Output type `TraceValue`: canonical value (`TraceValKind.Runtime`). -/
inductive TraceValue where
  | runtime (value : RuntimeValueType) : TraceValue
deriving Repr

/-- Output type `TraceLocation`: canonical location (`TraceLocKind.Local`).  The
`frameId` is `Option Nat` because the source assigns
`frameIDs[frameIDs.length - 1]`, which is JavaScript `undefined`
(modelled `none`) when the open-frame stack is empty. -/
structure TraceLocation where
  frameId : Option Nat
  localIndex : Nat
deriving DecidableEq, Repr

/-- Output type `EventEffect`: canonical effect (`TraceEffectKind.Write`). -/
inductive EventEffect where
  | write (location : TraceLocation) (value : TraceValue) : EventEffect
deriving Repr

/-- Output type `TraceEvent`: canonical trace event. -/
inductive TraceEvent where
  | OpenFrame (id : Nat) (name : String) (modInfo : ModuleInfo)
      (localsTypes : List String) (paramValues : List TraceValue) : TraceEvent
  | CloseFrame (id : Nat) : TraceEvent
  | Instruction (pc : Nat) : TraceEvent
  | Effect (effect : EventEffect) : TraceEvent
deriving Repr

-- JavaScript array / Map primitives used by the mutable state of readTrace.

/-- JavaScript array read `a[i]`: `none` when the index is out of range or
the slot is a hole (both read as `undefined`). -/
def entry (row : List (Option α)) (i : Nat) : Option α :=
  (row.get? i).getD none

/-- JavaScript array write `a[i] = v`: writing past the end pads the
array with holes (`none`) up to index `i`. -/
def setIdx : List (Option α) → Nat → α → List (Option α)
  | [], 0, v => [some v]
  | [], n + 1, v => none :: setIdx [] n v
  | _ :: rest, 0, v => some v :: rest
  | x :: rest, n + 1, v => x :: setIdx rest n v

/-- JavaScript `Map.get`. -/
def mapGet [DecidableEq K] : List (K × V) → K → Option V
  | [], _ => none
  | (k', v) :: rest, k => if k' = k then some v else mapGet rest k

/-- JavaScript `Map.set`: replaces the value of an existing key in place
(keeping insertion order), otherwise appends the new binding. -/
def mapSet [DecidableEq K] : List (K × V) → K → V → List (K × V)
  | [], k, v => [(k, v)]
  | (k', v') :: rest, k, v =>
      if k' = k then (k, v) :: rest else (k', v') :: mapSet rest k v

/-- A frame's lifetime row: `localLifetimeEnds` values. -/
abbrev LifetimeRow := List (Option LifetimeEnd)

/-- A frame's max-pc row: `locaLifetimeEndsMax` values. -/
abbrev MaxRow := List (Option Nat)

/-- The `localLifetimeEnds` map.  Keys are `Option Nat` because the source
keys the map by `frameIDs[frameIDs.length - 1]`, which is `undefined`
(modelled `none`) when the open-frame stack is empty; frame ids from
locations always enter as `some`. -/
abbrev LifetimeMap := List (Option Nat × LifetimeRow)

/-- The `locaLifetimeEndsMax` map (spelling kept from the source). -/
abbrev MaxMap := List (Option Nat × MaxRow)

/-- Embeds `processJSONLocation` (trace_utils.ts, lines 349-373): sets the end of
lifetime for a local variable and returns the local index if the location
is a local variable in the current frame.  The returned map is the
(possibly) updated `localLifetimeEnds`. -/
def processJSONLocation (location : JSONTraceLocation)
    (localLifetimeEnds : LifetimeMap) (currentFrameID : Option Nat) :
    Option Nat × LifetimeMap :=
  match location with
  | .Local frameId localIndex =>
      let lifetimeEnds := (mapGet localLifetimeEnds (some frameId)).getD []
      let lifetimeEnds := setIdx lifetimeEnds localIndex .frameLifetime
      (some localIndex, mapSet localLifetimeEnds (some frameId) lifetimeEnds)
  | .Indexed frameId baseLocalIndex _ =>
      if some frameId = currentFrameID then
        let localIndex := baseLocalIndex
        let lifetimeEnds := (mapGet localLifetimeEnds (some frameId)).getD []
        let lifetimeEnds := setIdx lifetimeEnds localIndex .frameLifetime
        (some localIndex, mapSet localLifetimeEnds (some frameId) lifetimeEnds)
      else
        (none, localLifetimeEnds)

/-- The mutable state of `readTrace`'s event loop: the accumulated
canonical events, the two lifetime maps, and the open-frame stack
`frameIDs` (head = top; JavaScript `push`/`pop` act on the array's
end, modelled by `cons`/`tail`). -/
structure TraceState where
  events : List TraceEvent
  localLifetimeEnds : LifetimeMap
  locaLifetimeEndsMax : MaxMap
  frameIDs : List Nat
deriving Repr

/-- The empty state at entry of `readTrace`'s loop. -/
def initState : TraceState := ⟨[], [], [], []⟩

/-- The parameter loop of the `OpenFrame` branch (lines 253-264):
accumulates `paramValues` and sets `lifetimeEnds[i] = FRAME_LIFETIME` for
each parameter index `i` (every element of `parameters` is an object,
hence truthy under the source's `if (value)` test). -/
def openParamsLoop : List JSONTraceValue → Nat → List TraceValue → LifetimeRow →
    List TraceValue × LifetimeRow
  | [], _, paramValues, lifetimeEnds => (paramValues, lifetimeEnds)
  | value :: rest, i, paramValues, lifetimeEnds =>
      let runtimeValue : TraceValue := .runtime (traceValueFromJSON value.RuntimeValue.value)
      openParamsLoop rest (i + 1) (paramValues ++ [runtimeValue])
        (setIdx lifetimeEnds i .frameLifetime)

/-- The body of the `Instruction` branch's `for` loop at one index `i`
(lines 295-305): if `lifetimeEnds[i]` is `undefined` or `FRAME_LIFETIME`,
and `lifetimeEndsMax[i]` is `undefined` or `< pc`, set both entries to
`pc`; otherwise leave both rows unchanged. -/
def instrUpdate (pc : Nat) (p : LifetimeRow × MaxRow) (i : Nat) : LifetimeRow × MaxRow :=
  let lifetimeEnds := p.1
  let lifetimeEndsMax := p.2
  if entry lifetimeEnds i = none ∨ entry lifetimeEnds i = some .frameLifetime then
    match entry lifetimeEndsMax i with
    | none => (setIdx lifetimeEnds i (.pc pc), setIdx lifetimeEndsMax i pc)
    | some m =>
        if m < pc then (setIdx lifetimeEnds i (.pc pc), setIdx lifetimeEndsMax i pc)
        else (lifetimeEnds, lifetimeEndsMax)
  else
    (lifetimeEnds, lifetimeEndsMax)

/-- The shared part of the `Write`/`Read` effect handling (lines 310-341):
resolve the location (updating `localLifetimeEnds`), `continue` when it
does not resolve, and emit a canonical `Write` event when the effect is a
`Write` (`write = some v`); `Read` effects (`write = none`) emit
nothing. -/
def effectStep (st : TraceState) (location : JSONTraceLocation)
    (write : Option JSONTraceValue) : TraceState :=
  let currentFrameID := st.frameIDs.head?
  let r := processJSONLocation location st.localLifetimeEnds currentFrameID
  match r.1 with
  | none => { st with localLifetimeEnds := r.2 }
  | some localIndex =>
      let st' := { st with localLifetimeEnds := r.2 }
      match write with
      | none => st'
      | some root_value_after_write =>
          let value := traceValueFromJSON root_value_after_write.RuntimeValue.value
          let traceValue : TraceValue := .runtime value
          let traceLocation : TraceLocation := ⟨currentFrameID, localIndex⟩
          { st' with events := st'.events ++ [.Effect (.write traceLocation traceValue)] }

/-- One iteration of `readTrace`'s event loop (lines 242-343): the
`if/else if` dispatch over the event's tag.  An event matching none of
the four shapes falls through the chain and leaves the state unchanged. -/
def processEvent (st : TraceState) (event : JSONTraceEvent) : TraceState :=
  match event with
  | .OpenFrame frame =>
      let localsTypes := frame.locals_types.map (fun t => t.type_)
      let lifetimeEnds := (mapGet st.localLifetimeEnds (some frame.frame_id)).getD []
      let pl := openParamsLoop frame.parameters 0 [] lifetimeEnds
      let paramValues := pl.1
      let lifetimeEnds := pl.2
      { st with
        localLifetimeEnds := mapSet st.localLifetimeEnds (some frame.frame_id) lifetimeEnds,
        events := st.events ++ [.OpenFrame frame.frame_id frame.function_name
          ⟨frame.module.address, frame.module.name⟩ localsTypes paramValues],
        frameIDs := frame.frame_id :: st.frameIDs }
  | .CloseFrame frame_id =>
      { st with
        events := st.events ++ [.CloseFrame frame_id],
        frameIDs := st.frameIDs.tail }
  | .Instruction pc =>
      let events := st.events ++ [.Instruction pc]
      let currentFrameID := st.frameIDs.head?
      let lifetimeEnds := (mapGet st.localLifetimeEnds currentFrameID).getD []
      let lifetimeEndsMax := (mapGet st.locaLifetimeEndsMax currentFrameID).getD []
      let p := (List.range lifetimeEnds.length).foldl (instrUpdate pc)
        (lifetimeEnds, lifetimeEndsMax)
      { st with
        events := events,
        localLifetimeEnds := mapSet st.localLifetimeEnds currentFrameID p.1,
        locaLifetimeEndsMax := mapSet st.locaLifetimeEndsMax currentFrameID p.2 }
  | .Effect effect =>
      match effect with
      | .Write location root_value_after_write =>
          effectStep st location (some root_value_after_write)
      | .Read location _ _ => effectStep st location none
      | .Push => st
      | .Pop => st
      | .unknownEffect => st
  | .unknown => st

/-- Output type `ITrace`: the result of `readTrace` — the canonical events and the
finalized lifetime map. -/
structure ITrace where
  events : List TraceEvent
  localLifetimeEnds : LifetimeMap
deriving Repr

/-- The parsed shape of the input file: the source reads only the
`events` and (declares but never reads) the `version` field of the root
object; either field may be absent from the underlying JSON. -/
structure JSONTraceRootObject where
  version : Option Nat
  events : Option (List JSONTraceEvent)
deriving Repr

/-- The input to `readTrace`, one level above the parsed root: the file's
contents either fail `JSON.parse` (`invalid`) or parse to a root
object. -/
inductive JSONInput where
  | invalid : JSONInput
  | valid (root : JSONTraceRootObject) : JSONInput
deriving Repr

/-- The exceptions `readTrace` can raise: `JSON.parse` throws a
`SyntaxError` on invalid JSON, and `for ... of traceJSON.events` throws a
`TypeError` when `events` is absent (`undefined` is not iterable). -/
inductive ReadTraceError where
  | syntaxError : ReadTraceError
  | typeError : ReadTraceError
deriving DecidableEq, Repr

/-- Run the event loop of `readTrace` from a given state. -/
def runEvents (st : TraceState) (events : List JSONTraceEvent) : TraceState :=
  events.foldl processEvent st

/-- Embeds `readTrace` (trace_utils.ts, lines 218-345): parse the file, walk the
events once, and return `{ events, localLifetimeEnds }`.  The `version`
field of the root object is never consulted. -/
def readTrace (input : JSONInput) : Except ReadTraceError ITrace :=
  match input with
  | .invalid => .error .syntaxError
  | .valid root =>
      match root.events with
      | none => .error .typeError
      | some evs =>
          let final := runEvents initState evs
          .ok ⟨final.events, final.localLifetimeEnds⟩

-- Concrete traces used by the spec's testable properties.

/-- A frame with id 1, one parameter of value `42`, and no further
locals (the frame of the spec's concrete scenario and loop regression). -/
def mainFrame : JSONTraceFrame :=
  ⟨1, "main", ⟨"0x42", "m"⟩, [], [⟨⟨.num 42⟩⟩]⟩

/-- A second frame with id 2 and no parameters. -/
def helperFrame : JSONTraceFrame :=
  ⟨2, "helper", ⟨"0x42", "m"⟩, [], []⟩

/-- Instruction events for the consecutive pcs `a, a+1, ..., b`. -/
def instructionRange (a b : Nat) : List JSONTraceEvent :=
  (List.range (b + 1 - a)).map (fun k => .Instruction (a + k))

/-- The spec's concrete scenario: `OpenFrame(id=1, params=[42])`,
`Instruction(pc=0)`, `Effect.Write(location={Local:[1,0]}, value=43)`,
`Instruction(pc=1)`, `CloseFrame(id=1)`. -/
def basicScenarioTrace : List JSONTraceEvent :=
  [.OpenFrame mainFrame, .Instruction 0,
   .Effect (.Write (.Local 1 0) ⟨⟨.num 43⟩⟩),
   .Instruction 1, .CloseFrame 1]

/-- The canonical events the basic scenario produces. -/
def basicScenarioEvents : List TraceEvent :=
  [.OpenFrame 1 "main" ⟨"0x42", "m"⟩ [] [.runtime (.scalar "42")],
   .Instruction 0,
   .Effect (.write ⟨some 1, 0⟩ (.runtime (.scalar "43"))),
   .Instruction 1,
   .CloseFrame 1]

/-- The spec's loop regression scenario: a frame with one local (the
parameter), a loop body spanning pcs 10-20 executed three times, and a
read of the local on the second iteration only (between pc 15 and
pc 16). -/
def loopScenarioTrace : List JSONTraceEvent :=
  [.OpenFrame mainFrame]
    ++ instructionRange 10 20
    ++ instructionRange 10 15
    ++ [.Effect (.Read (.Local 1 0) false ⟨⟨.num 42⟩⟩)]
    ++ instructionRange 16 20
    ++ instructionRange 10 20
    ++ [.CloseFrame 1]

/-- A trace that closes frame 1 (finalizing its row at `[pc 5]`) and then
processes a `Write` effect whose `Local` location names the closed
frame's id while frame 2 is open. -/
def reopenScenarioTrace : List JSONTraceEvent :=
  [.OpenFrame mainFrame, .Instruction 5, .CloseFrame 1,
   .OpenFrame helperFrame,
   .Effect (.Write (.Local 1 0) ⟨⟨.num 7⟩⟩),
   .CloseFrame 2]

/-- A trace whose `CloseFrame` id (1) differs from the id on top of the
open-frame stack (2) at that point. -/
def mismatchCloseTrace : List JSONTraceEvent :=
  [.OpenFrame mainFrame, .OpenFrame helperFrame, .CloseFrame 1]

/-- A trace containing one `Indexed` `Write` effect pointing at the
non-current frame 1 (frame 2 is topmost) and one resolving `Write`
effect. -/
def crossFrameTrace : List JSONTraceEvent :=
  [.OpenFrame mainFrame, .OpenFrame helperFrame,
   .Effect (.Write (.Indexed 1 0 0) ⟨⟨.num 5⟩⟩),
   .Effect (.Write (.Local 2 0) ⟨⟨.num 6⟩⟩),
   .CloseFrame 2, .CloseFrame 1]

/-- The canonical events `crossFrameTrace` produces: the `Indexed` effect
is dropped, so one canonical `Write` remains of the two raw `Write`
effects. -/
def crossFrameEvents : List TraceEvent :=
  [.OpenFrame 1 "main" ⟨"0x42", "m"⟩ [] [.runtime (.scalar "42")],
   .OpenFrame 2 "helper" ⟨"0x42", "m"⟩ [] [],
   .Effect (.write ⟨some 2, 0⟩ (.runtime (.scalar "6"))),
   .CloseFrame 2, .CloseFrame 1]

/-- Count of raw `Write` effects in a raw event list. -/
def countWriteEffects : List JSONTraceEvent → Nat
  | [] => 0
  | .Effect (.Write _ _) :: rest => countWriteEffects rest + 1
  | _ :: rest => countWriteEffects rest

/-- Count of canonical `Write` events in a canonical event list. -/
def countWriteEvents : List TraceEvent → Nat
  | [] => 0
  | .Effect (.write _ _) :: rest => countWriteEvents rest + 1
  | _ :: rest => countWriteEvents rest

-- Observation helpers for stating the claims.

/-- The frame id written inside a raw location: the `Local` pair's first
component, or the base `Local`'s first component for `Indexed`.  This is
the key under which `processJSONLocation` updates the lifetime map. -/
def locFrame : JSONTraceLocation → Nat
  | .Local frameId _ => frameId
  | .Indexed baseFrameId _ _ => baseFrameId

/-- The lifetime row of the current (topmost) frame, as the source reads
it: `localLifetimeEnds.get(currentFrameID) || []`. -/
def currentRow (st : TraceState) : LifetimeRow :=
  (mapGet st.localLifetimeEnds st.frameIDs.head?).getD []

/-- The max-pc row of the current (topmost) frame, as the source reads
it: `locaLifetimeEndsMax.get(currentFrameID) || []`. -/
def currentMaxRow (st : TraceState) : MaxRow :=
  (mapGet st.locaLifetimeEndsMax st.frameIDs.head?).getD []

/-- Whether processing `event` in state `st` can touch the lifetime row
stored under frame id `fid`: an `OpenFrame` with that id, an
`Instruction` executed while that id is the current frame, or a
`Write`/`Read` effect whose location names that id. -/
def referencesRow (fid : Nat) (st : TraceState) : JSONTraceEvent → Bool
  | .OpenFrame frame => frame.frame_id == fid
  | .Instruction _ => st.frameIDs.head? == some fid
  | .Effect (.Write location _) => locFrame location == fid
  | .Effect (.Read location _ _) => locFrame location == fid
  | _ => false

theorem traceValuesFromJSON_eq_map (l : List JSONValue) :
    traceValuesFromJSON l = l.map traceValueFromJSON := by
  induction l with
  | nil => rfl
  | cons v rest ih => simp [traceValuesFromJSON, ih]

theorem traceFieldsFromJSON_eq_map (l : List (String × JSONValue)) :
    traceFieldsFromJSON l = l.map (fun p => (p.1, traceValueFromJSON p.2)) := by
  induction l with
  | nil => rfl
  | cons p rest ih => cases p; simp [traceFieldsFromJSON, ih]

-- Pointwise lemmas about the array / Map primitives.

theorem entry_setIdx_self (row : List (Option α)) (i : Nat) (v : α) :
    entry (setIdx row i v) i = some v := by
  induction row generalizing i with
  | nil =>
      induction i with
      | zero => rfl
      | succ n ih => simpa [setIdx, entry] using ih
  | cons x rest ih =>
      cases i with
      | zero => rfl
      | succ n => simpa [setIdx, entry] using ih n

theorem entry_setIdx_ne (row : List (Option α)) (i j : Nat) (v : α) (h : j ≠ i) :
    entry (setIdx row i v) j = entry row j := by
  induction row generalizing i j with
  | nil =>
      induction i generalizing j with
      | zero =>
          cases j with
          | zero => exact absurd rfl h
          | succ m => rfl
      | succ n ih =>
          cases j with
          | zero => rfl
          | succ m =>
              have := ih m (fun hc => h (by omega))
              simpa [setIdx, entry] using this
  | cons x rest ih =>
      cases i with
      | zero =>
          cases j with
          | zero => exact absurd rfl h
          | succ m => rfl
      | succ n =>
          cases j with
          | zero => rfl
          | succ m =>
              have := ih n m (fun hc => h (by omega))
              simpa [setIdx, entry] using this

theorem mapGet_mapSet_self [DecidableEq K] (m : List (K × V)) (k : K) (v : V) :
    mapGet (mapSet m k v) k = some v := by
  induction m with
  | nil => simp [mapGet, mapSet]
  | cons p rest ih =>
      by_cases h : p.1 = k
      · cases p; simp_all [mapGet, mapSet]
      · cases p; simp_all [mapGet, mapSet]

theorem mapGet_mapSet_ne [DecidableEq K] (m : List (K × V)) (k k' : K) (v : V)
    (h : k' ≠ k) : mapGet (mapSet m k v) k' = mapGet m k' := by
  induction m with
  | nil => simp [mapGet, mapSet, Ne.symm h]
  | cons p rest ih =>
      cases p with
      | mk pk pv =>
          by_cases hk : pk = k
          · subst hk
            simp [mapGet, mapSet, Ne.symm h]
          · by_cases hk' : pk = k' <;> simp_all [mapGet, mapSet]

-- Locality lemmas for the Instruction branch's per-slot update.

theorem instrUpdate_entry_ne (pc : Nat) (p : LifetimeRow × MaxRow) (j i : Nat)
    (h : i ≠ j) :
    entry (instrUpdate pc p j).1 i = entry p.1 i ∧
    entry (instrUpdate pc p j).2 i = entry p.2 i := by
  unfold instrUpdate
  by_cases hc : entry p.1 j = none ∨ entry p.1 j = some .frameLifetime
  · simp only [hc, if_pos]
    cases hm : entry p.2 j with
    | none => exact ⟨entry_setIdx_ne _ _ _ _ h, entry_setIdx_ne _ _ _ _ h⟩
    | some m =>
        by_cases hlt : m < pc
        · simp only [hlt, if_pos]
          exact ⟨entry_setIdx_ne _ _ _ _ h, entry_setIdx_ne _ _ _ _ h⟩
        · simp [hlt]
  · simp [hc]

theorem instrUpdate_entry_congr (pc : Nat) (p q : LifetimeRow × MaxRow) (i : Nat)
    (h1 : entry p.1 i = entry q.1 i) (h2 : entry p.2 i = entry q.2 i) :
    entry (instrUpdate pc p i).1 i = entry (instrUpdate pc q i).1 i ∧
    entry (instrUpdate pc p i).2 i = entry (instrUpdate pc q i).2 i := by
  simp only [instrUpdate]
  rw [h1, h2]
  by_cases hc : entry q.1 i = none ∨ entry q.1 i = some .frameLifetime
  · simp only [hc, if_pos]
    cases hm : entry q.2 i with
    | none => simp [entry_setIdx_self]
    | some m =>
        by_cases hlt : m < pc
        · simp [hlt, entry_setIdx_self]
        · simp [hlt, h1, h2]
  · simp [hc, h1, h2]

theorem foldl_instrUpdate_not_mem (pc : Nat) (l : List Nat)
    (p : LifetimeRow × MaxRow) (i : Nat) (h : i ∉ l) :
    entry (l.foldl (instrUpdate pc) p).1 i = entry p.1 i ∧
    entry (l.foldl (instrUpdate pc) p).2 i = entry p.2 i := by
  induction l generalizing p with
  | nil => exact ⟨rfl, rfl⟩
  | cons j rest ih =>
      have hij : i ≠ j := fun hc => h (hc ▸ List.mem_cons_self j rest)
      have hrest : i ∉ rest := fun hc => h (List.mem_cons_of_mem j hc)
      have hstep := instrUpdate_entry_ne pc p j i hij
      have := ih (instrUpdate pc p j) hrest
      simp only [List.foldl_cons]
      exact ⟨this.1.trans hstep.1, this.2.trans hstep.2⟩

theorem foldl_instrUpdate_range (pc n : Nat) (p : LifetimeRow × MaxRow) (i : Nat)
    (h : i < n) :
    entry ((List.range n).foldl (instrUpdate pc) p).1 i
      = entry (instrUpdate pc p i).1 i ∧
    entry ((List.range n).foldl (instrUpdate pc) p).2 i
      = entry (instrUpdate pc p i).2 i := by
  induction n with
  | zero => omega
  | succ n ih =>
      rw [List.range_succ, List.foldl_append, List.foldl_cons, List.foldl_nil]
      by_cases hn : i = n
      · subst hn
        have hnot : i ∉ List.range i := by simp
        have hpres := foldl_instrUpdate_not_mem pc (List.range i) p i hnot
        exact (instrUpdate_entry_congr pc _ p i hpres.1 hpres.2)
      · have hlt : i < n := by omega
        have hfold := ih hlt
        have hstep := instrUpdate_entry_ne pc ((List.range n).foldl (instrUpdate pc) p) n i hn
        exact ⟨hstep.1.trans hfold.1, hstep.2.trans hfold.2⟩

theorem instrUpdate_self_set (pc : Nat) (p : LifetimeRow × MaxRow) (i : Nat)
    (hlive : entry p.1 i = none ∨ entry p.1 i = some .frameLifetime)
    (hmax : entry p.2 i = none ∨ ∃ m, entry p.2 i = some m ∧ m < pc) :
    entry (instrUpdate pc p i).1 i = some (.pc pc) ∧
    entry (instrUpdate pc p i).2 i = some pc := by
  unfold instrUpdate
  simp only [hlive, if_pos]
  cases hm : entry p.2 i with
  | none => simp [entry_setIdx_self]
  | some m =>
      have hlt : m < pc := by
        rcases hmax with hmax | ⟨m', hm', hlt⟩
        · rw [hm] at hmax; exact absurd hmax (by simp)
        · rw [hm] at hm'; injection hm' with hh; omega
      simp [hlt, entry_setIdx_self]

theorem instrUpdate_self_skip (pc : Nat) (p : LifetimeRow × MaxRow) (i : Nat)
    (hmax : ¬(entry p.2 i = none ∨ ∃ m, entry p.2 i = some m ∧ m < pc)) :
    entry (instrUpdate pc p i).1 i = entry p.1 i ∧
    entry (instrUpdate pc p i).2 i = entry p.2 i := by
  unfold instrUpdate
  by_cases hc : entry p.1 i = none ∨ entry p.1 i = some .frameLifetime
  · simp only [hc, if_pos]
    cases hm : entry p.2 i with
    | none => exact absurd (Or.inl hm) hmax
    | some m =>
        have hge : ¬ m < pc := fun hlt => hmax (Or.inr ⟨m, hm, hlt⟩)
        simp [hge, hm]
  · simp [hc]

-- Claim theorems.

/-- Claim C2: on the concrete raw trace `OpenFrame(id=1, params=[42])`,
`Instruction(0)`, `Effect.Write({Local:[1,0]}, 43)`, `Instruction(1)`,
`CloseFrame(1)`, `readTrace` produces exactly the canonical event list
`[OpenFrame, Instruction(0), Effect(Write, slot 0, Scalar("43")),
Instruction(1), CloseFrame]`; the lifetime row of frame 1 equals
`[FRAME_LIFETIME]` immediately after the `Write` effect is processed
(after the first three events); and the row is finalized at frame close
(the `CloseFrame` event leaves the lifetime map unchanged, and nothing
follows it). -/
theorem basicScenario_canonical :
    readTrace (.valid ⟨some 1, some basicScenarioTrace⟩)
      = .ok ⟨basicScenarioEvents, [(some 1, [some (.pc 1)])]⟩
    ∧ (runEvents initState (basicScenarioTrace.take 3)).localLifetimeEnds
      = [(some 1, [some .frameLifetime])]
    ∧ (runEvents initState basicScenarioTrace).localLifetimeEnds
      = (runEvents initState (basicScenarioTrace.take 4)).localLifetimeEnds := by
  exact ⟨rfl, rfl, rfl⟩

/-- Claim C3, counterexample: a root object with the unsupported version
999 does not raise any error — `readTrace` processes every event and
returns the full result, contradicting the claim that a `FormatError` is
raised before any event is processed. -/
theorem version_unchecked_counterexample :
    readTrace (.valid ⟨some 999, some basicScenarioTrace⟩)
      = .ok ⟨basicScenarioEvents, [(some 1, [some (.pc 1)])]⟩ := by
  exact rfl

/-- Claim C3, amended: input that is not valid JSON fails at parse
(`JSON.parse` raises a `SyntaxError`), input lacking `events` raises a
`TypeError` when the event array is iterated, and in both cases no
partial result is returned; but the `version` field is never validated —
the result is completely independent of `version` (missing or
unsupported values such as 999 included), and ingestion of any event
list completes with a result. -/
theorem readTrace_error_behavior :
    readTrace .invalid = .error .syntaxError
    ∧ (∀ v : Option Nat, readTrace (.valid ⟨v, none⟩) = .error .typeError)
    ∧ (∀ (v w : Option Nat) (evs : List JSONTraceEvent),
        readTrace (.valid ⟨v, some evs⟩) = readTrace (.valid ⟨w, some evs⟩))
    ∧ (∀ (v : Option Nat) (evs : List JSONTraceEvent),
        ∃ t : ITrace, readTrace (.valid ⟨v, some evs⟩) = .ok t) := by
  refine ⟨rfl, fun v => rfl, fun v w evs => rfl, fun v evs => ⟨_, rfl⟩⟩

/-- Claim C4, counterexample: a trace consisting of one event that
matches none of the four known shapes ingests without any error —
`readTrace` returns an empty result instead of propagating a
`SchemaError`. -/
theorem unknown_event_counterexample :
    readTrace (.valid ⟨some 1, some [.unknown]⟩) = .ok ⟨[], []⟩ := by
  exact rfl

/-- Claim C4, amended: an event whose tag matches none of the four known
shapes is silently skipped — it falls through the `if/else if` chain,
leaving the entire state unchanged, and ingestion continues with the
remaining events — rather than propagating a fatal `SchemaError`. -/
theorem unknown_event_skipped :
    (∀ st : TraceState, processEvent st .unknown = st)
    ∧ (∀ (st : TraceState) (evs1 evs2 : List JSONTraceEvent),
        runEvents st (evs1 ++ .unknown :: evs2) = runEvents st (evs1 ++ evs2)) := by
  constructor
  · intro st; rfl
  · intro st evs1 evs2
    simp only [runEvents, List.foldl_append, List.foldl_cons]
    rfl

/-- Claim C6, counterexample: on a trace whose `CloseFrame` id (1)
differs from the id on top of the open-frame stack (2), ingestion does
not fail — `readTrace` returns a full result. -/
theorem closeFrame_mismatch_counterexample :
    readTrace (.valid ⟨some 1, some mismatchCloseTrace⟩)
      = .ok ⟨[.OpenFrame 1 "main" ⟨"0x42", "m"⟩ [] [.runtime (.scalar "42")],
             .OpenFrame 2 "helper" ⟨"0x42", "m"⟩ [] [],
             .CloseFrame 1],
            [(some 1, [some .frameLifetime]), (some 2, [])]⟩ := by
  exact rfl

/-- Claim C6, amended: a `CloseFrame` event is processed without any
check of its id against the open-frame stack: the canonical `CloseFrame`
event carries the id from the raw event, the top of the stack is popped
unconditionally whether or not it matches, the lifetime tables are left
untouched, and ingestion continues — on the mismatched trace the frame
id left on the stack is 1 (frame 2 was popped although the event named
frame 1). -/
theorem closeFrame_pops_unconditionally :
    (∀ (st : TraceState) (fid : Nat),
      (processEvent st (.CloseFrame fid)).events = st.events ++ [.CloseFrame fid]
      ∧ (processEvent st (.CloseFrame fid)).frameIDs = st.frameIDs.tail
      ∧ (processEvent st (.CloseFrame fid)).localLifetimeEnds = st.localLifetimeEnds
      ∧ (processEvent st (.CloseFrame fid)).locaLifetimeEndsMax = st.locaLifetimeEndsMax)
    ∧ (runEvents initState mismatchCloseTrace).frameIDs = [1] := by
  exact ⟨fun st fid => ⟨rfl, rfl, rfl, rfl⟩, rfl⟩

/-- Claim C7: a `Write` or `Read` effect whose location is `Indexed` with
a base `Local` frame id different from the current (topmost) frame id
resolves to `undefined`, produces no canonical event and leaves the
state completely unchanged; ingestion of the remaining events completes
without exception, and on the concrete cross-frame trace the result has
exactly one fewer canonical `Write` event than the trace has raw `Write`
effects. -/
theorem indexed_other_frame_dropped :
    (∀ (st : TraceState) (f bi off : Nat) (v : JSONTraceValue) (mv : Bool)
        (rv : JSONTraceValue), some f ≠ st.frameIDs.head? →
      processJSONLocation (.Indexed f bi off) st.localLifetimeEnds st.frameIDs.head?
        = (none, st.localLifetimeEnds)
      ∧ processEvent st (.Effect (.Write (.Indexed f bi off) v)) = st
      ∧ processEvent st (.Effect (.Read (.Indexed f bi off) mv rv)) = st)
    ∧ readTrace (.valid ⟨some 1, some crossFrameTrace⟩)
        = .ok ⟨crossFrameEvents,
               [(some 1, [some .frameLifetime]), (some 2, [some .frameLifetime])]⟩
    ∧ countWriteEvents crossFrameEvents + 1 = countWriteEffects crossFrameTrace := by
  refine ⟨fun st f bi off v mv rv h => ?_, rfl, rfl⟩
  refine ⟨?_, ?_, ?_⟩
  · simp [processJSONLocation, h]
  · simp [processEvent, effectStep, processJSONLocation, h]
  · simp [processEvent, effectStep, processJSONLocation, h]

theorem indexed_other_frame_dropped_witness :
    processEvent (runEvents initState [.OpenFrame mainFrame])
      (.Effect (.Write (.Indexed 2 0 0) ⟨⟨.num 3⟩⟩))
      = runEvents initState [.OpenFrame mainFrame] :=
  ((indexed_other_frame_dropped.1 (runEvents initState [.OpenFrame mainFrame])
      2 0 0 ⟨⟨.num 3⟩⟩ false ⟨⟨.num 3⟩⟩ (by decide)).2).1

/-- Claim C9: `traceValueFromJSON` is a total function over the raw value
schema (it is defined by well-founded recursion on the raw value, hence
never fails): booleans, numbers and strings decode to the scalar
`String(raw)`; arrays decode elementwise into a sequence; and any other
object decodes to a compound whose fields are the recursively decoded
entries in declared order and whose `type`, `variant_name`,
`variant_tag` are copied through unchanged. -/
theorem traceValueFromJSON_spec :
    (∀ b, traceValueFromJSON (.bool b) = .scalar (if b then "true" else "false"))
    ∧ (∀ n : Int, traceValueFromJSON (.num n) = .scalar (toString n))
    ∧ (∀ s, traceValueFromJSON (.str s) = .scalar s)
    ∧ (∀ elems, traceValueFromJSON (.arr elems)
        = .seq (elems.map traceValueFromJSON))
    ∧ (∀ fields type_ variant_name variant_tag,
        traceValueFromJSON (.compound fields type_ variant_name variant_tag)
          = .compound (fields.map (fun p => (p.1, traceValueFromJSON p.2)))
              type_ variant_name variant_tag) := by
  refine ⟨fun b => rfl, fun n => rfl, fun s => rfl, fun elems => ?_,
    fun fields type_ vn vt => ?_⟩
  · rw [traceValueFromJSON, traceValuesFromJSON_eq_map]
  · rw [traceValueFromJSON, traceFieldsFromJSON_eq_map]

-- State-level helper lemmas.

theorem processEvent_instruction_rows (st : TraceState) (pc : Nat) :
    currentRow (processEvent st (.Instruction pc))
      = ((List.range (currentRow st).length).foldl (instrUpdate pc)
          (currentRow st, currentMaxRow st)).1
    ∧ currentMaxRow (processEvent st (.Instruction pc))
      = ((List.range (currentRow st).length).foldl (instrUpdate pc)
          (currentRow st, currentMaxRow st)).2 := by
  constructor <;>
    simp [processEvent, currentRow, currentMaxRow, mapGet_mapSet_self]

theorem processJSONLocation_resolved (loc : JSONTraceLocation) (m : LifetimeMap)
    (cur : Option Nat) (s : Nat) (m' : LifetimeMap)
    (h : processJSONLocation loc m cur = (some s, m')) :
    entry ((mapGet m' (some (locFrame loc))).getD []) s = some .frameLifetime
    ∧ (∀ j, j ≠ s →
        entry ((mapGet m' (some (locFrame loc))).getD []) j
          = entry ((mapGet m (some (locFrame loc))).getD []) j)
    ∧ (∀ k, k ≠ some (locFrame loc) → mapGet m' k = mapGet m k) := by
  cases loc with
  | Local f li =>
      simp only [processJSONLocation, Prod.mk.injEq, Option.some.injEq] at h
      obtain ⟨hs, hm⟩ := h
      subst hs
      subst hm
      refine ⟨?_, ?_, ?_⟩
      · simp [locFrame, mapGet_mapSet_self, entry_setIdx_self]
      · intro j hj
        simp only [locFrame, mapGet_mapSet_self, Option.getD_some]
        exact entry_setIdx_ne _ _ _ _ hj
      · intro k hk
        simp only [locFrame] at hk
        exact mapGet_mapSet_ne _ _ _ _ hk
  | Indexed f bi off =>
      by_cases hc : (some f : Option Nat) = cur
      · subst hc
        simp only [processJSONLocation, if_true] at h
        simp only [Prod.mk.injEq, Option.some.injEq] at h
        obtain ⟨hs, hm⟩ := h
        subst hs
        subst hm
        refine ⟨?_, ?_, ?_⟩
        · simp [locFrame, mapGet_mapSet_self, entry_setIdx_self]
        · intro j hj
          simp only [locFrame, mapGet_mapSet_self, Option.getD_some]
          exact entry_setIdx_ne _ _ _ _ hj
        · intro k hk
          simp only [locFrame] at hk
          exact mapGet_mapSet_ne _ _ _ _ hk
      · simp [processJSONLocation, hc] at h

-- Claim theorems (continued).

/-- Claim C1, amended: on each `Instruction(pc)` event, for every slot
`i` in the current frame's lifetime row whose `endOfLife` entry is unset
or equal to the alive-sentinel `FRAME_LIFETIME`, the analyzer sets
`endOfLife[i] = pc` and `maxPcSeen[i] = pc` exactly when `maxPcSeen[i]`
is unset or strictly less than `pc`, and otherwise leaves both entries
unchanged.  Consequently, for a frame with one local whose loop body
spans pcs 10 through 20 executed three times with a read of the local on
the second iteration only, the final recorded end-of-life for that local
is 16 — the pc of the first instruction after the read that exceeds the
stored `maxPcSeen` of 10 — not at least 20 (because `maxPcSeen` is only
advanced when `endOfLife` is also written, it does not track the highest
pc of iterations during which the slot was already dead). -/
theorem instruction_lifetime_update_rule :
    (∀ (st : TraceState) (pc i : Nat),
      i < (currentRow st).length →
      (entry (currentRow st) i = none ∨
        entry (currentRow st) i = some .frameLifetime) →
      ((entry (currentMaxRow st) i = none ∨
          (∃ m, entry (currentMaxRow st) i = some m ∧ m < pc)) →
        entry (currentRow (processEvent st (.Instruction pc))) i = some (.pc pc)
        ∧ entry (currentMaxRow (processEvent st (.Instruction pc))) i = some pc)
      ∧ (¬(entry (currentMaxRow st) i = none ∨
            (∃ m, entry (currentMaxRow st) i = some m ∧ m < pc)) →
        entry (currentRow (processEvent st (.Instruction pc))) i
          = entry (currentRow st) i
        ∧ entry (currentMaxRow (processEvent st (.Instruction pc))) i
          = entry (currentMaxRow st) i))
    ∧ (runEvents initState loopScenarioTrace).localLifetimeEnds
        = [(some 1, [some (.pc 16)])] := by
  constructor
  · intro st pc i hi hlive
    have hrows := processEvent_instruction_rows st pc
    have hfold := foldl_instrUpdate_range pc (currentRow st).length
      (currentRow st, currentMaxRow st) i hi
    constructor
    · intro hmax
      have hset := instrUpdate_self_set pc (currentRow st, currentMaxRow st) i hlive hmax
      rw [hrows.1, hrows.2]
      exact ⟨hfold.1.trans hset.1, hfold.2.trans hset.2⟩
    · intro hmax
      have hskip := instrUpdate_self_skip pc (currentRow st, currentMaxRow st) i hmax
      rw [hrows.1, hrows.2]
      exact ⟨hfold.1.trans hskip.1, hfold.2.trans hskip.2⟩
  · rfl

theorem instruction_lifetime_update_rule_witness :
    entry (currentRow (processEvent (runEvents initState [.OpenFrame mainFrame])
        (.Instruction 3))) 0 = some (.pc 3)
    ∧ entry (currentMaxRow (processEvent (runEvents initState [.OpenFrame mainFrame])
        (.Instruction 3))) 0 = some 3 :=
  (instruction_lifetime_update_rule.1 (runEvents initState [.OpenFrame mainFrame]) 3 0
    (by decide) (Or.inr rfl)).1 (Or.inl rfl)

/-- Claim C1, counterexample: in the loop scenario (one local, loop body
pcs 10-20 run three times, read of the local on iteration two only) the
final recorded end-of-life is 16, which is not at least 20. -/
theorem loopScenario_counterexample :
    (runEvents initState loopScenarioTrace).localLifetimeEnds
      = [(some 1, [some (.pc 16)])]
    ∧ ¬ 20 ≤ 16 := ⟨rfl, by omega⟩

/-- Claim C5, counterexample: after `CloseFrame(1)` the stored row for
frame 1 is `[pc 5]`, but the later `Write` effect whose `Local` location
names the closed frame's id resets it to `[FRAME_LIFETIME]` — the row of
a closed frame is modified by a later event of the same trace. -/
theorem closedFrame_row_modified_counterexample :
    (runEvents initState (reopenScenarioTrace.take 3)).localLifetimeEnds
      = [(some 1, [some (.pc 5)])]
    ∧ (runEvents initState reopenScenarioTrace).localLifetimeEnds
      = [(some 1, [some .frameLifetime]), (some 2, [])]
    ∧ LifetimeEnd.pc 5 ≠ LifetimeEnd.frameLifetime := ⟨rfl, rfl, by decide⟩

/-- Claim C5, amended: after a `CloseFrame(id)` the stored lifetime row
for that frame id is preserved by every later event that does not
reference `id` — that is, any event other than an `OpenFrame` reusing
`id` (which merges its parameter initialization into the old row), an
`Instruction` executed while `id` is the current frame, or a
`Write`/`Read` effect whose location names `id` (which resets the named
slot to `FRAME_LIFETIME`, even though the frame is closed).  The row is
not protected after close: the excluded events do modify it, as the
counterexample shows. -/
theorem row_preserved_when_unreferenced (fid : Nat) (st : TraceState)
    (e : JSONTraceEvent) (h : referencesRow fid st e = false) :
    mapGet (processEvent st e).localLifetimeEnds (some fid)
      = mapGet st.localLifetimeEnds (some fid) := by
  cases e with
  | OpenFrame frame =>
      have hne : frame.frame_id ≠ fid := by simpa [referencesRow] using h
      simp only [processEvent]
      exact mapGet_mapSet_ne _ _ _ _ (fun hc => hne (Option.some.inj hc).symm)
  | Instruction pc =>
      have hne : st.frameIDs.head? ≠ some fid := by simpa [referencesRow] using h
      simp only [processEvent]
      exact mapGet_mapSet_ne _ _ _ _ (Ne.symm hne)
  | CloseFrame fid' => rfl
  | unknown => rfl
  | Effect eff =>
      cases eff with
      | Push => rfl
      | Pop => rfl
      | unknownEffect => rfl
      | Write location v =>
          have hne : locFrame location ≠ fid := by simpa [referencesRow] using h
          cases location with
          | Local f li =>
              simp only [locFrame] at hne
              simp only [processEvent, effectStep, processJSONLocation]
              exact mapGet_mapSet_ne _ _ _ _ (fun hc => hne (Option.some.inj hc).symm)
          | Indexed f bi off =>
              simp only [locFrame] at hne
              by_cases hc : (some f : Option Nat) = st.frameIDs.head?
              · simp only [processEvent, effectStep, processJSONLocation, hc, if_pos]
                exact mapGet_mapSet_ne _ _ _ _
                  (fun hk => hne (Option.some.inj (hk.trans hc.symm)).symm)
              · simp [processEvent, effectStep, processJSONLocation, hc]
      | Read location mv rv =>
          have hne : locFrame location ≠ fid := by simpa [referencesRow] using h
          cases location with
          | Local f li =>
              simp only [locFrame] at hne
              simp only [processEvent, effectStep, processJSONLocation]
              exact mapGet_mapSet_ne _ _ _ _ (fun hc => hne (Option.some.inj hc).symm)
          | Indexed f bi off =>
              simp only [locFrame] at hne
              by_cases hc : (some f : Option Nat) = st.frameIDs.head?
              · simp only [processEvent, effectStep, processJSONLocation, hc, if_pos]
                exact mapGet_mapSet_ne _ _ _ _
                  (fun hk => hne (Option.some.inj (hk.trans hc.symm)).symm)
              · simp [processEvent, effectStep, processJSONLocation, hc]

theorem row_preserved_when_unreferenced_witness :
    referencesRow 1 (runEvents initState
      [.OpenFrame mainFrame, .CloseFrame 1, .OpenFrame helperFrame])
      (.Instruction 7) = false
    ∧ mapGet (processEvent (runEvents initState
        [.OpenFrame mainFrame, .CloseFrame 1, .OpenFrame helperFrame])
        (.Instruction 7)).localLifetimeEnds (some 1)
      = mapGet (runEvents initState
        [.OpenFrame mainFrame, .CloseFrame 1, .OpenFrame helperFrame]).localLifetimeEnds
        (some 1) :=
  ⟨rfl, row_preserved_when_unreferenced 1 _ (.Instruction 7) rfl⟩

/-- Claim C8: a `Write` or `Read` effect that resolves to slot `s` sets
that slot's `endOfLife` entry (in the lifetime row keyed by the
location's frame id) to the alive-sentinel `FRAME_LIFETIME`, while
leaving the whole `maxPcSeen` table unchanged, leaving the `endOfLife`
entries of all other slots of that row unchanged, and leaving the rows
of all other frames unchanged. -/
theorem effect_resets_lifetime (st : TraceState) (loc : JSONTraceLocation)
    (s : Nat) (m' : LifetimeMap)
    (h : processJSONLocation loc st.localLifetimeEnds st.frameIDs.head? = (some s, m')) :
    (∀ v : JSONTraceValue,
      (processEvent st (.Effect (.Write loc v))).locaLifetimeEndsMax
          = st.locaLifetimeEndsMax
      ∧ (processEvent st (.Effect (.Write loc v))).localLifetimeEnds = m')
    ∧ (∀ (mv : Bool) (rv : JSONTraceValue),
        (processEvent st (.Effect (.Read loc mv rv))).locaLifetimeEndsMax
            = st.locaLifetimeEndsMax
        ∧ (processEvent st (.Effect (.Read loc mv rv))).localLifetimeEnds = m')
    ∧ entry ((mapGet m' (some (locFrame loc))).getD []) s = some .frameLifetime
    ∧ (∀ j, j ≠ s →
        entry ((mapGet m' (some (locFrame loc))).getD []) j
          = entry ((mapGet st.localLifetimeEnds (some (locFrame loc))).getD []) j)
    ∧ (∀ k, k ≠ some (locFrame loc) →
        mapGet m' k = mapGet st.localLifetimeEnds k) := by
  have hres := processJSONLocation_resolved loc st.localLifetimeEnds
    st.frameIDs.head? s m' h
  refine ⟨fun v => ?_, fun mv rv => ?_, hres.1, hres.2.1, hres.2.2⟩
  · constructor <;> simp [processEvent, effectStep, h]
  · constructor <;> simp [processEvent, effectStep, h]

theorem effect_resets_lifetime_witness :
    entry ((mapGet [((some 1 : Option Nat), [some LifetimeEnd.frameLifetime])]
        (some 1)).getD []) 0 = some LifetimeEnd.frameLifetime :=
  (effect_resets_lifetime (runEvents initState [.OpenFrame mainFrame])
    (.Local 1 0) 0 [(some 1, [some .frameLifetime])] rfl).2.2.1

/-- Claim C10: a canonical `Write` event is emitted with
`location.frameId` equal to the topmost open frame id at the moment the
raw effect is processed (`frameIDs[frameIDs.length - 1]`), even when the
raw effect's `Local` location names a different open frame — while the
lifetime row reset to the alive-sentinel is the row keyed by the frame
id written inside the raw location. -/
theorem write_event_frameId_topmost (st : TraceState) (loc : JSONTraceLocation)
    (s : Nat) (m' : LifetimeMap) (v : JSONTraceValue)
    (h : processJSONLocation loc st.localLifetimeEnds st.frameIDs.head? = (some s, m')) :
    (processEvent st (.Effect (.Write loc v))).events
      = st.events ++ [.Effect (.write ⟨st.frameIDs.head?, s⟩
          (.runtime (traceValueFromJSON v.RuntimeValue.value)))]
    ∧ (processEvent st (.Effect (.Write loc v))).localLifetimeEnds = m'
    ∧ entry ((mapGet m' (some (locFrame loc))).getD []) s = some .frameLifetime := by
  refine ⟨?_, ?_,
    (processJSONLocation_resolved loc st.localLifetimeEnds st.frameIDs.head? s m' h).1⟩
  · simp [processEvent, effectStep, h]
  · simp [processEvent, effectStep, h]

theorem write_event_frameId_topmost_witness :
    (processEvent (runEvents initState [.OpenFrame mainFrame, .OpenFrame helperFrame])
        (.Effect (.Write (.Local 1 0) ⟨⟨.num 9⟩⟩))).events
      = (runEvents initState
          [.OpenFrame mainFrame, .OpenFrame helperFrame]).events
        ++ [.Effect (.write ⟨some 2, 0⟩ (.runtime (.scalar "9")))] :=
  (write_event_frameId_topmost
    (runEvents initState [.OpenFrame mainFrame, .OpenFrame helperFrame])
    (.Local 1 0) 0 [(some 1, [some .frameLifetime]), (some 2, [])]
    ⟨⟨.num 9⟩⟩ rfl).1

end TraceAdapter
